import Mathlib

/-!
Shallow embedding of `photo_organizer.py` (moncruist/photo_organizer).

The program scans a source tree, extracts creation timestamps through a
persistent exiftool subprocess, and copies recognized media files into
`<destination>/<YYYY-MM>/<basename>` with a size-based collision policy.

Conventions of the embedding:
* Python `datetime` values become the `DateTime` structure below; the
  timezone offset of an aware datetime is `tz = some minutes`, a naive
  datetime has `tz = none`.
* `datetime.strptime` with the patterns used by the program is modelled on
  the canonical zero-padded forms of those patterns (EXIF and QuickTime
  timestamps are zero-padded), including the range validation that the
  `datetime` constructor performs.
* Python exceptions are modelled by `Option` (an exception caught inside
  `parse_multimedia_file` yields `none`) and by `Except` where the claims
  are about propagation across function boundaries.
* The destination filesystem is an association list from path to file
  size (`FS`); directories are a list of directory paths (`DiskState`).
* Machine integers do not occur: Python integers are unbounded, so sizes
  are `Int` and date fields are `Nat`.
-/

namespace PhotoOrganizer

/-- Numeric value of a decimal digit character. -/
def dval (c : Char) : Nat := c.toNat - 48

/-- Decimal digits to a natural number; `none` on an empty list or a
non-digit, mirroring the grammar accepted by Python `int()`. -/
def digitsToNat (cs : List Char) : Option Nat :=
  if cs ≠ [] ∧ cs.all Char.isDigit then
    some (cs.foldl (fun acc c => 10 * acc + dval c) 0)
  else none

/-- Python `int(str)` on a trimmed string: optional sign followed by
decimal digits, `none` (a ValueError) otherwise. -/
def pyIntCore : List Char → Option Int
  | '-' :: rest => (digitsToNat rest).map (fun n => -(n : Int))
  | '+' :: rest => (digitsToNat rest).map (fun n => (n : Int))
  | cs => (digitsToNat cs).map (fun n => (n : Int))

/-- ASCII whitespace, the characters Python `int()` strips. -/
def isSpaceChar (c : Char) : Bool :=
  c = ' ' || c = '\t' || c = '\n' || c = '\r'

/-- Strip whitespace from both ends of a character list. -/
def trimChars (cs : List Char) : List Char :=
  ((cs.dropWhile isSpaceChar).reverse.dropWhile isSpaceChar).reverse

/-- Python `int(str)`: surrounding whitespace is ignored. -/
def pyInt (s : String) : Option Int := pyIntCore (trimChars s.data)

/-- Embedding of Python `datetime`: date and time fields plus an optional
timezone offset in minutes (`none` for a timezone-naive value). -/
structure DateTime where
  year : Nat
  month : Nat
  day : Nat
  hour : Nat
  minute : Nat
  second : Nat
  tz : Option Int
deriving DecidableEq, Repr

/-- Leap-year rule used by the `datetime` constructor. -/
def isLeapYear (y : Nat) : Bool :=
  y % 4 = 0 && (y % 100 ≠ 0 || y % 400 = 0)

/-- Number of days of month `m` of year `y` (Gregorian calendar). -/
def daysInMonth (y m : Nat) : Nat :=
  if m = 2 then (if isLeapYear y then 29 else 28)
  else if m = 4 ∨ m = 6 ∨ m = 9 ∨ m = 11 then 30
  else 31

/-- Range validation performed by the Python `datetime` constructor: a
value outside these ranges raises ValueError. -/
def mkValidDateTime (y mo d h mi s : Nat) (tz : Option Int) : Option DateTime :=
  if 1 ≤ y ∧ y ≤ 9999 ∧ 1 ≤ mo ∧ mo ≤ 12 ∧ 1 ≤ d ∧ d ≤ daysInMonth y mo ∧
      h ≤ 23 ∧ mi ≤ 59 ∧ s ≤ 59 then
    some ⟨y, mo, d, h, mi, s, tz⟩
  else none

/-- Shape check for the 19-character body `YYYY:MM:DD HH:MM:SS` of the
patterns used by the program, returning the six numeric fields. -/
def parse19 : List Char → Option (Nat × Nat × Nat × Nat × Nat × Nat)
  | [y1, y2, y3, y4, c1, o1, o2, c2, d1, d2, c3, h1, h2, c4, i1, i2, c5, s1, s2] =>
    if y1.isDigit ∧ y2.isDigit ∧ y3.isDigit ∧ y4.isDigit ∧ c1 = ':' ∧
        o1.isDigit ∧ o2.isDigit ∧ c2 = ':' ∧ d1.isDigit ∧ d2.isDigit ∧
        c3 = ' ' ∧ h1.isDigit ∧ h2.isDigit ∧ c4 = ':' ∧ i1.isDigit ∧
        i2.isDigit ∧ c5 = ':' ∧ s1.isDigit ∧ s2.isDigit then
      some (1000 * dval y1 + 100 * dval y2 + 10 * dval y3 + dval y4,
            10 * dval o1 + dval o2,
            10 * dval d1 + dval d2,
            10 * dval h1 + dval h2,
            10 * dval i1 + dval i2,
            10 * dval s1 + dval s2)
    else none
  | _ => none

/-- The `%z` directive: `Z` or a signed `HHMM` / `HH:MM` offset, with the
strict-less-than-24-hours bound enforced by `timezone`. -/
def parseTZOffset : List Char → Option Int
  | ['Z'] => some 0
  | [sg, h1, h2, m1, m2] =>
    if (sg = '+' ∨ sg = '-') ∧ h1.isDigit ∧ h2.isDigit ∧ m1.isDigit ∧ m2.isDigit then
      let off : Nat := 60 * (10 * dval h1 + dval h2) + (10 * dval m1 + dval m2)
      if off < 1440 then some (if sg = '-' then -(off : Int) else (off : Int))
      else none
    else none
  | [sg, h1, h2, c, m1, m2] =>
    if (sg = '+' ∨ sg = '-') ∧ h1.isDigit ∧ h2.isDigit ∧ c = ':' ∧ m1.isDigit ∧ m2.isDigit then
      let off : Nat := 60 * (10 * dval h1 + dval h2) + (10 * dval m1 + dval m2)
      if off < 1440 then some (if sg = '-' then -(off : Int) else (off : Int))
      else none
    else none
  | _ => none

/-- `datetime.strptime(v, "%Y:%m:%d %H:%M:%S")` on canonical zero-padded
input: `none` models the ValueError raised on a mismatch. -/
def parseDateTimeNaive (s : String) : Option DateTime :=
  (parse19 s.data).bind fun (y, mo, d, h, mi, sec) =>
    mkValidDateTime y mo d h mi sec none

/-- `datetime.strptime(v, "%Y:%m:%d %H:%M:%S%z")` on canonical zero-padded
input: the 19-character body followed by a mandatory offset. -/
def parseDateTimeTZ (s : String) : Option DateTime :=
  (parse19 (s.data.take 19)).bind fun (y, mo, d, h, mi, sec) =>
    (parseTZOffset (s.data.drop 19)).bind fun off =>
      mkValidDateTime y mo d h mi sec (some off)

/-- The `MultimediaFile` class: path, size and creation date. -/
structure MultimediaFile where
  path : String
  size : Int
  creation_date : DateTime
deriving DecidableEq, Repr

/-- One metadata record returned by exiftool for one file: a mapping from
namespaced tag name to value string (Python dict, modelled as an
association list queried with `List.lookup`). -/
abbrev MetaRecord := List (String × String)

/-- Tag preference list of the image branch of `parse_multimedia_file`. -/
def imageTags : List String :=
  ["EXIF:DateTimeOriginal", "EXIF:CreateDate", "XMP:CreateDate"]

/-- MIME types of the image branch. -/
def isImageMime (mime : String) : Prop :=
  mime = "image/jpeg" ∨ mime = "image/png" ∨ mime = "image/heic"

instance (mime : String) : Decidable (isImageMime mime) := by
  unfold isImageMime; infer_instance

/-- The MIME types the classifier supports at all. -/
def supportedMimes : List String :=
  ["image/jpeg", "image/png", "image/heic", "video/quicktime"]

/--
`parse_multimedia_file(file_path, exif_process)` after the metadata list
has been obtained (lines 51 to 73 of `photo_organizer.py`): an empty
metadata list yields `None`; a missing MIME type or a missing or
unparsable file size raises inside the `try` block and is caught,
yielding `None`; the image branch walks the tag preference list and
parses the first present tag (a parse failure raises and is caught); the
QuickTime branch parses `QuickTime:CreationDate` with a timezone offset;
any other MIME type leaves the creation date unset. The function returns
a record only when a creation date was obtained.
-/
def parse_multimedia_file (path : String) (metadata : List MetaRecord) :
    Option MultimediaFile :=
  match metadata with
  | [] => none
  | m :: _ =>
    match m.lookup "File:MIMEType" with
    | none => none
    | some mime =>
      match (m.lookup "File:FileSize").bind pyInt with
      | none => none
      | some sz =>
        let date : Option DateTime :=
          if isImageMime mime then
            (imageTags.findSome? (fun t => m.lookup t)).bind parseDateTimeNaive
          else if mime = "video/quicktime" then
            (m.lookup "QuickTime:CreationDate").bind parseDateTimeTZ
          else none
        date.map (fun d => ⟨path, sz, d⟩)

/-- Zero-padded decimal rendering of width `w` (the `strftime` fields
`%Y` and `%m` of the program are rendered zero-padded). -/
def padNum (w n : Nat) : String :=
  String.mk (List.replicate (w - (Nat.repr n).length) '0') ++ Nat.repr n

/-- `creation_date.strftime("%Y-%m")`. -/
def strftimeYM (d : DateTime) : String :=
  padNum 4 d.year ++ "-" ++ padNum 2 d.month

/-- Split a character list on the slash separator (the components do not
contain the separator, and a trailing separator yields a final empty
component, as Python `str.split` does). -/
def splitOnSlash : List Char → List (List Char)
  | [] => [[]]
  | x :: xs =>
    let r := splitOnSlash xs
    if x = '/' then [] :: r
    else
      match r with
      | [] => [[x]]
      | h :: t => (x :: h) :: t

/-- `os.path.basename` on POSIX: the part after the last slash. -/
def basename (p : String) : String :=
  String.mk ((splitOnSlash p.data).getLastD [])

/-- Whether a path string starts with the POSIX separator. -/
def startsWithSlash (s : String) : Bool :=
  match s.data with
  | c :: _ => c = '/'
  | [] => false

/-- Whether a path string ends with the POSIX separator. -/
def endsWithSlash (s : String) : Bool :=
  match s.data.getLast? with
  | some c => c = '/'
  | none => false

/-- `os.path.join` on POSIX for two components. -/
def osPathJoin (a b : String) : String :=
  if startsWithSlash b then b
  else if a = "" ∨ endsWithSlash a then a ++ b
  else a ++ "/" ++ b

/-- `construct_target_path(file, destination)`:
`os.path.join(destination, file.creation_date.strftime("%Y-%m"),
os.path.basename(file.path))`. -/
def construct_target_path (file : MultimediaFile) (destination : String) : String :=
  osPathJoin (osPathJoin destination (strftimeYM file.creation_date)) (basename file.path)

/-- Destination filesystem (files only): association list from path to
file size; `List.lookup` plays `os.path.exists` / `os.path.getsize`. -/
abbrev FS := List (String × Int)

/-- Writing a file: `shutil.copyfile` replaces whatever was at the target
path, so the previous entry for that path is removed. -/
def fsWrite (fs : FS) (p : String) (sz : Int) : FS :=
  (p, sz) :: fs.filter (fun q => q.1 ≠ p)

/-- The decision of line 107 to 118 of `unique_files`, as a boolean: the
candidate is kept when no file exists at the target, or when the policy
branch taken for the existing size turns `unique` back on. -/
def keepFile (f : MultimediaFile) (destination : String) (skip_smaller : Bool)
    (fs : FS) : Bool :=
  match fs.lookup (construct_target_path f destination) with
  | none => true
  | some target_file_size =>
    if skip_smaller then decide (f.size > target_file_size)
    else decide (f.size ≠ target_file_size)

/-- `unique_files(files, destination, skip_smaller)`: the loop appends a
candidate to the result exactly when its `unique` flag ends up true; the
destination state `fs` is read, never written, during the loop. -/
def unique_files (files : List MultimediaFile) (destination : String)
    (skip_smaller : Bool) (fs : FS) : List MultimediaFile :=
  match files with
  | [] => []
  | f :: rest =>
    if keepFile f destination skip_smaller fs then
      f :: unique_files rest destination skip_smaller fs
    else
      unique_files rest destination skip_smaller fs

/-- The tri-state collision outcome of the spec. -/
inductive CollisionDecision where
  | Unique
  | OverwriteAllowed
  | Skip
deriving DecidableEq, Repr

/-- Modelled from the spec (section 4.4): the collision-decision table, a
pure function of candidate size, existing size at the target (if any) and
the policy flag; compared below with the decision the code takes. -/
def collisionDecision (csize : Int) (existing : Option Int) (skipSmaller : Bool) :
    CollisionDecision :=
  match existing with
  | none => .Unique
  | some esize =>
    if skipSmaller then
      if csize > esize then .OverwriteAllowed else .Skip
    else
      if csize ≠ esize then .OverwriteAllowed else .Skip

/-- `pathlib.Path(p).parent` on POSIX paths without a trailing slash. -/
def parentDir (p : String) : String :=
  let parts := splitOnSlash p.data
  if parts.length ≤ 1 then "."
  else String.mk (List.intercalate ['/'] parts.dropLast)

/-- Destination disk state: the files present plus the directories
present (`copy_file` consults and creates directories). -/
structure DiskState where
  files : FS
  dirs : List String
deriving DecidableEq, Repr

/-- `copy_file(file, destination)`: create the target directory when it is
absent, then copy the source bytes over the target path. -/
def copy_file (f : MultimediaFile) (destination : String) (st : DiskState) :
    DiskState :=
  let tp := construct_target_path f destination
  let td := parentDir tp
  let st1 : DiskState := if td ∈ st.dirs then st else ⟨st.files, td :: st.dirs⟩
  ⟨fsWrite st1.files tp f.size, st1.dirs⟩

/-- The copy loop of `main` without dry-run: each resolved candidate is
copied in order. -/
def copy_files (files : List MultimediaFile) (destination : String)
    (st : DiskState) : DiskState :=
  match files with
  | [] => st
  | f :: rest => copy_files rest destination (copy_file f destination st)

/-- Observable effects of the copy phase: console lines, directory
creations and byte copies. -/
inductive FsEvent where
  | printLine : String → FsEvent
  | mkdirp : String → FsEvent
  | copyBytes : String → String → FsEvent
deriving DecidableEq, Repr

/-- `print_copy_file(file, destination)`: the line printed in dry-run
mode. -/
def print_copy_line (f : MultimediaFile) (destination : String) : String :=
  "Copy " ++ f.path ++ " -> " ++ construct_target_path f destination

/-- `copy_file` with its effects made explicit: a `mkdirp` when the
target directory is absent, then the byte copy. -/
def copy_file_ev (f : MultimediaFile) (destination : String) (st : DiskState) :
    List FsEvent × DiskState :=
  let tp := construct_target_path f destination
  let td := parentDir tp
  ((if td ∈ st.dirs then [] else [.mkdirp td]) ++ [.copyBytes f.path tp],
   copy_file f destination st)

/-- The copy loop of `main` (lines 153 to 158) with effects: in dry-run
mode each candidate only produces its `print_copy_file` line; otherwise a
progress line is written and `copy_file` runs. -/
def copy_phase_aux (dryRun : Bool) (destination : String) :
    List MultimediaFile → Nat → DiskState → List FsEvent × DiskState
  | [], _, st => ([], st)
  | f :: rest, i, st =>
    if dryRun then
      let r := copy_phase_aux dryRun destination rest (i + 1) st
      (.printLine (print_copy_line f destination) :: r.1, r.2)
    else
      let c := copy_file_ev f destination st
      let r := copy_phase_aux dryRun destination rest (i + 1) c.2
      (.printLine ("Copy file: " ++ Nat.repr (i + 1)) :: c.1 ++ r.1, r.2)

/-- The whole copy phase, starting at index 0. -/
def copy_phase (dryRun : Bool) (files : List MultimediaFile)
    (destination : String) (st : DiskState) : List FsEvent × DiskState :=
  copy_phase_aux dryRun destination files 0 st

/-- The byte-copy events of an effect list, in order. -/
def copyEvents (evs : List FsEvent) : List (String × String) :=
  evs.filterMap (fun e =>
    match e with
    | .copyBytes s d => some (s, d)
    | _ => none)

/-- Result of `ExifTool.get_metadata` for one file: either the decoded
list of records, or an exception (for example `json.loads` failing on the
response). The call to `get_metadata` on line 50 sits outside the `try`
block of lines 54 to 67. -/
abbrev FetchResult := Except String (List MetaRecord)

/-- `parse_multimedia_file` including the metadata fetch of line 50: a
fetch exception propagates (the `try` starts only on line 54), while
everything after a successful fetch is the caught body above. -/
def parse_multimedia_file_session (path : String) (fetch : FetchResult) :
    Except String (Option MultimediaFile) :=
  match fetch with
  | .error e => .error e
  | .ok metadata => .ok (parse_multimedia_file path metadata)

/-- `enumerate_files(path)` over the walked files, each paired with the
outcome of its metadata fetch: recognized records accumulate in walk
order, unrecognized files are skipped, and an exception escaping
`parse_multimedia_file` aborts the whole enumeration. -/
def enumerate_files (entries : List (String × FetchResult)) :
    Except String (List MultimediaFile) :=
  match entries with
  | [] => .ok []
  | (p, fetch) :: rest =>
    match parse_multimedia_file_session p fetch with
    | .error e => .error e
    | .ok none => enumerate_files rest
    | .ok (some f) => (enumerate_files rest).map (fun l => f :: l)

/-- The exiftool request block of `ExifTool.execute`: the arguments and
the final marker, joined with newlines (the marker string itself ends in
a newline). Bytes are modelled as characters. -/
def sendWire (args : List (List Char)) : List Char :=
  List.intercalate ['\n'] (args ++ [("-execute\n").data])

/-- The ready sentinel: the fixed text plus the platform line
separator. -/
def sentinelOf (linesep : List Char) : List Char :=
  ("\x7bready\x7d").data ++ linesep

/-- The read loop of `ExifTool.execute`: chunks from the pipe accumulate
until the buffer ends with the sentinel; the sentinel suffix is then
stripped. `none` models a read loop that never sees the sentinel before
the modelled chunk supply ends (the real loop would block forever). -/
def readLoop (sent : List Char) (chunks : List (List Char)) (acc : List Char) :
    Option (List Char) :=
  if sent.isSuffixOf acc then some (acc.take (acc.length - sent.length))
  else
    match chunks with
    | [] => none
    | c :: cs => readLoop sent cs (acc ++ c)

/-! ### Helper lemmas -/

theorem keepFile_eq_decide (f : MultimediaFile) (dest : String) (sp : Bool) (fs : FS) :
    keepFile f dest sp fs
      = decide (collisionDecision f.size (fs.lookup (construct_target_path f dest)) sp
          ≠ CollisionDecision.Skip) := by
  unfold keepFile collisionDecision
  cases fs.lookup (construct_target_path f dest) with
  | none => simp
  | some e =>
    cases sp with
    | false =>
      by_cases h : f.size = e <;> simp [h]
    | true =>
      by_cases h : f.size > e <;> simp [h]

theorem unique_files_eq_filter (files : List MultimediaFile) (dest : String)
    (sp : Bool) (fs : FS) :
    unique_files files dest sp fs = files.filter (fun f => keepFile f dest sp fs) := by
  induction files with
  | nil => rfl
  | cons f rest ih =>
    by_cases h : keepFile f dest sp fs = true <;>
      simp [unique_files, List.filter, h, ih]

/-! ### Claim theorems -/

/--
C1: the collision decision for a candidate against its computed target
path matches the table of the spec — no file at the target gives
`Unique`; with skip-smaller disabled an existing file gives
`OverwriteAllowed` exactly when the sizes differ and `Skip` when they are
equal; with skip-smaller enabled it gives `OverwriteAllowed` exactly when
the candidate is strictly larger and `Skip` otherwise — and
`unique_files` keeps a candidate in the result exactly when its decision
is `Unique` or `OverwriteAllowed` (that is, not `Skip`).
-/
theorem unique_files_collision_table (files : List MultimediaFile) (dest : String)
    (sp : Bool) (fs : FS) (c e : Int) :
    unique_files files dest sp fs
      = files.filter (fun f =>
          decide (collisionDecision f.size
            (fs.lookup (construct_target_path f dest)) sp ≠ CollisionDecision.Skip)) ∧
    collisionDecision c none sp = CollisionDecision.Unique ∧
    collisionDecision c (some e) false
      = (if c ≠ e then CollisionDecision.OverwriteAllowed else CollisionDecision.Skip) ∧
    collisionDecision c (some e) true
      = (if c > e then CollisionDecision.OverwriteAllowed else CollisionDecision.Skip) := by
  refine ⟨?_, rfl, rfl, rfl⟩
  rw [unique_files_eq_filter]
  exact List.filter_congr (fun f _ => keepFile_eq_decide f dest sp fs)

/--
C2: the computed target path is
`os.path.join(os.path.join(dest, YYYY-MM), basename)` with the
year rendered zero-padded to 4 digits and the month to 2 digits; for a
destination without a trailing slash this is the literal
`dest/YYYY-MM/basename`; two records with the same creation year and
month and the same base name get the same target path; and the two
timestamps of the spec both land in folder `2024-03`.
-/
theorem construct_target_path_spec (f g : MultimediaFile) (dest : String) :
    construct_target_path f dest
      = osPathJoin (osPathJoin dest
          (padNum 4 f.creation_date.year ++ "-" ++ padNum 2 f.creation_date.month))
          (basename f.path) ∧
    (dest ≠ "" → endsWithSlash dest = false →
      startsWithSlash (strftimeYM f.creation_date) = false →
      startsWithSlash (basename f.path) = false →
      (dest ++ "/" ++ strftimeYM f.creation_date) ≠ "" →
      endsWithSlash (dest ++ "/" ++ strftimeYM f.creation_date) = false →
      construct_target_path f dest
        = dest ++ "/" ++ strftimeYM f.creation_date ++ "/" ++ basename f.path) ∧
    (f.creation_date.year = g.creation_date.year →
      f.creation_date.month = g.creation_date.month →
      basename f.path = basename g.path →
      construct_target_path f dest = construct_target_path g dest) ∧
    strftimeYM ⟨2024, 3, 15, 10, 0, 0, none⟩ = "2024-03" ∧
    strftimeYM ⟨2024, 3, 2, 23, 59, 59, none⟩ = "2024-03" := by
  refine ⟨rfl, ?_, ?_, rfl, rfl⟩
  · intro hd1 hd2 hf1 hb1 hm1 hm2
    unfold construct_target_path osPathJoin
    simp [hd1, hd2, hf1, hb1, hm1, hm2]
  · intro hy hm hb
    unfold construct_target_path strftimeYM
    rw [hy, hm, hb]

/-- C2 witness: concrete record, destination `photos`. -/
theorem construct_target_path_spec_witness :
    construct_target_path ⟨"src/sub/a.jpg", 500, ⟨2024, 3, 15, 10, 0, 0, none⟩⟩ "photos"
      = "photos" ++ "/" ++ strftimeYM ⟨2024, 3, 15, 10, 0, 0, none⟩ ++ "/"
          ++ basename "src/sub/a.jpg" :=
  (construct_target_path_spec ⟨"src/sub/a.jpg", 500, ⟨2024, 3, 15, 10, 0, 0, none⟩⟩
    ⟨"src/sub/a.jpg", 500, ⟨2024, 3, 15, 10, 0, 0, none⟩⟩ "photos").2.1
    (by decide) (by decide) (by decide) (by decide) (by decide) (by decide)

theorem copy_phase_aux_dry (files : List MultimediaFile) (dest : String)
    (i : Nat) (st : DiskState) :
    copy_phase_aux true dest files i st
      = (files.map (fun g => FsEvent.printLine (print_copy_line g dest)), st) := by
  induction files generalizing i with
  | nil => rfl
  | cons f rest ih => simp [copy_phase_aux, ih]

/--
C7: in dry-run mode the copy phase performs no filesystem mutation — the
disk state is returned unchanged, no `mkdirp` and no `copyBytes` event
occurs — and its only effect is one printed copy line per resolved
candidate (so exactly one line for a single candidate).
-/
theorem dry_run_only_prints (files : List MultimediaFile) (dest : String)
    (st : DiskState) (f : MultimediaFile) :
    copy_phase true files dest st
      = (files.map (fun g => FsEvent.printLine (print_copy_line g dest)), st) ∧
    copyEvents (copy_phase true files dest st).1 = [] ∧
    (copy_phase true files dest st).2 = st ∧
    (copy_phase true [f] dest st).1.length = 1 := by
  have h := copy_phase_aux_dry files dest 0 st
  refine ⟨h, ?_, ?_, ?_⟩
  · show copyEvents (copy_phase_aux true dest files 0 st).1 = []
    rw [h]
    induction files with
    | nil => rfl
    | cons g rest _ => simp [copyEvents]
  · show (copy_phase_aux true dest files 0 st).2 = st
    rw [h]
  · show (copy_phase_aux true dest [f] 0 st).1.length = 1
    rw [copy_phase_aux_dry]
    rfl

theorem parse_image_base (path : String) (m : MetaRecord) (rest : List MetaRecord)
    (mime : String) (sz : Int)
    (hm : m.lookup "File:MIMEType" = some mime)
    (himg : isImageMime mime)
    (hsz : (m.lookup "File:FileSize").bind pyInt = some sz) :
    parse_multimedia_file path (m :: rest)
      = ((imageTags.findSome? (fun t => m.lookup t)).bind parseDateTimeNaive).map
          (fun d => ⟨path, sz, d⟩) := by
  simp only [parse_multimedia_file, hm, hsz, if_pos himg]

/--
C3: for a record whose MIME type is `image/jpeg`, `image/png` or
`image/heic` (and whose size field parses), the creation timestamp is
extracted from exactly the first present tag in the order
`EXIF:DateTimeOriginal`, `EXIF:CreateDate`, `XMP:CreateDate`, parsed as a
timezone-naive date-time in the pattern `YYYY:MM:DD HH:MM:SS`; a
lower-precedence tag is consulted only when every higher-precedence tag
is absent, and with no tag present the file is not recognized.
-/
theorem image_tag_precedence (path : String) (m : MetaRecord) (rest : List MetaRecord)
    (mime : String) (sz : Int)
    (hm : m.lookup "File:MIMEType" = some mime)
    (himg : isImageMime mime)
    (hsz : (m.lookup "File:FileSize").bind pyInt = some sz) :
    (∀ v, m.lookup "EXIF:DateTimeOriginal" = some v →
      parse_multimedia_file path (m :: rest)
        = (parseDateTimeNaive v).map (fun d => ⟨path, sz, d⟩)) ∧
    (m.lookup "EXIF:DateTimeOriginal" = none →
      ∀ v, m.lookup "EXIF:CreateDate" = some v →
      parse_multimedia_file path (m :: rest)
        = (parseDateTimeNaive v).map (fun d => ⟨path, sz, d⟩)) ∧
    (m.lookup "EXIF:DateTimeOriginal" = none → m.lookup "EXIF:CreateDate" = none →
      ∀ v, m.lookup "XMP:CreateDate" = some v →
      parse_multimedia_file path (m :: rest)
        = (parseDateTimeNaive v).map (fun d => ⟨path, sz, d⟩)) ∧
    (m.lookup "EXIF:DateTimeOriginal" = none → m.lookup "EXIF:CreateDate" = none →
      m.lookup "XMP:CreateDate" = none →
      parse_multimedia_file path (m :: rest) = none) := by
  have hbase := parse_image_base path m rest mime sz hm himg hsz
  refine ⟨?_, ?_, ?_, ?_⟩
  · intro v hv
    rw [hbase]
    simp [imageTags, List.findSome?_cons, hv]
  · intro h1 v hv
    rw [hbase]
    simp [imageTags, List.findSome?_cons, h1, hv]
  · intro h1 h2 v hv
    rw [hbase]
    simp [imageTags, List.findSome?_cons, h1, h2, hv]
  · intro h1 h2 h3
    rw [hbase]
    simp [imageTags, List.findSome?_cons, h1, h2, h3]

/-- C3 witness: with `EXIF:DateTimeOriginal` absent and `EXIF:CreateDate`
present, the lower-precedence tag supplies the timestamp. -/
theorem image_tag_precedence_witness :
    parse_multimedia_file "pic.png"
      [[("File:MIMEType", "image/png"), ("File:FileSize", "321"),
        ("EXIF:CreateDate", "2022:12:31 23:59:58")]]
      = (parseDateTimeNaive "2022:12:31 23:59:58").map
          (fun d => ⟨"pic.png", 321, d⟩) :=
  (image_tag_precedence "pic.png"
      [("File:MIMEType", "image/png"), ("File:FileSize", "321"),
       ("EXIF:CreateDate", "2022:12:31 23:59:58")] []
      "image/png" 321 (by decide) (by decide) (by decide)).2.1
    (by decide) "2022:12:31 23:59:58" (by decide)

/--
C4: the classifier fails closed. An empty metadata list, a missing MIME
type (a KeyError caught by the handler), an unsupported MIME type, an
unparsable or missing size field (caught), a supported MIME type with
none of its candidate tags present (the three image tags for the image
types, `QuickTime:CreationDate` for `video/quicktime`), or a malformed
timestamp in the chosen tag (a ValueError caught) each yield `None`; the
function is total
(no uncaught exception in the model), and a successful result always
carries the queried path, so it is never partially populated.
-/
theorem classifier_fails_closed (path : String) (m : MetaRecord)
    (rest : List MetaRecord) :
    parse_multimedia_file path [] = none ∧
    (m.lookup "File:MIMEType" = none → parse_multimedia_file path (m :: rest) = none) ∧
    (∀ mime, m.lookup "File:MIMEType" = some mime → mime ∉ supportedMimes →
      parse_multimedia_file path (m :: rest) = none) ∧
    ((m.lookup "File:FileSize").bind pyInt = none →
      parse_multimedia_file path (m :: rest) = none) ∧
    (∀ mime, m.lookup "File:MIMEType" = some mime → isImageMime mime →
      (∀ t ∈ imageTags, m.lookup t = none) →
      parse_multimedia_file path (m :: rest) = none) ∧
    (∀ mime v, m.lookup "File:MIMEType" = some mime → isImageMime mime →
      imageTags.findSome? (fun t => m.lookup t) = some v →
      parseDateTimeNaive v = none →
      parse_multimedia_file path (m :: rest) = none) ∧
    (∀ v, m.lookup "File:MIMEType" = some "video/quicktime" →
      m.lookup "QuickTime:CreationDate" = some v → parseDateTimeTZ v = none →
      parse_multimedia_file path (m :: rest) = none) ∧
    (m.lookup "File:MIMEType" = some "video/quicktime" →
      m.lookup "QuickTime:CreationDate" = none →
      parse_multimedia_file path (m :: rest) = none) ∧
    (∀ md f, parse_multimedia_file path md = some f → f.path = path) := by
  refine ⟨rfl, ?_, ?_, ?_, ?_, ?_, ?_, ?_, ?_⟩
  · intro h
    simp [parse_multimedia_file, h]
  · intro mime hm hns
    simp only [supportedMimes, List.mem_cons, List.not_mem_nil, or_false] at hns
    push_neg at hns
    obtain ⟨h1, h2, h3, h4⟩ := hns
    have himg : ¬ isImageMime mime := by simp [isImageMime, h1, h2, h3]
    cases hsz : (m.lookup "File:FileSize").bind pyInt with
    | none => simp [parse_multimedia_file, hm, hsz]
    | some sz => simp [parse_multimedia_file, hm, hsz, himg, h4]
  · intro hsz
    cases hm : m.lookup "File:MIMEType" with
    | none => simp [parse_multimedia_file, hm]
    | some mime => simp [parse_multimedia_file, hm, hsz]
  · intro mime hm himg htags
    have h1 := htags "EXIF:DateTimeOriginal" (by simp [imageTags])
    have h2 := htags "EXIF:CreateDate" (by simp [imageTags])
    have h3 := htags "XMP:CreateDate" (by simp [imageTags])
    cases hsz : (m.lookup "File:FileSize").bind pyInt with
    | none => simp [parse_multimedia_file, hm, hsz]
    | some sz =>
      rw [parse_image_base path m rest mime sz hm himg hsz]
      simp [imageTags, List.findSome?_cons, h1, h2, h3]
  · intro mime v hm himg hfind hparse
    cases hsz : (m.lookup "File:FileSize").bind pyInt with
    | none => simp [parse_multimedia_file, hm, hsz]
    | some sz =>
      rw [parse_image_base path m rest mime sz hm himg hsz]
      simp [hfind, hparse]
  · intro v hm hqt hparse
    have himg : ¬ isImageMime "video/quicktime" := by simp [isImageMime]
    cases hsz : (m.lookup "File:FileSize").bind pyInt with
    | none => simp [parse_multimedia_file, hm, hsz]
    | some sz => simp [parse_multimedia_file, hm, hsz, himg, hqt, hparse]
  · intro hm hqt
    have himg : ¬ isImageMime "video/quicktime" := by simp [isImageMime]
    cases hsz : (m.lookup "File:FileSize").bind pyInt with
    | none => simp [parse_multimedia_file, hm, hsz]
    | some sz => simp [parse_multimedia_file, hm, hsz, himg, hqt]
  · intro md f h
    match md with
    | [] => simp [parse_multimedia_file] at h
    | m' :: rest' =>
      cases hm : m'.lookup "File:MIMEType" with
      | none => simp [parse_multimedia_file, hm] at h
      | some mime =>
        cases hsz : (m'.lookup "File:FileSize").bind pyInt with
        | none => simp [parse_multimedia_file, hm, hsz] at h
        | some sz =>
          simp only [parse_multimedia_file, hm, hsz, Option.map_eq_some'] at h
          obtain ⟨d, _, hf⟩ := h
          subst hf
          rfl

/-- C4 witness: an unsupported MIME type is not recognized. -/
theorem classifier_fails_closed_witness :
    parse_multimedia_file "notes.txt"
      [[("File:MIMEType", "text/plain"), ("File:FileSize", "10")]] = none :=
  (classifier_fails_closed "notes.txt"
      [("File:MIMEType", "text/plain"), ("File:FileSize", "10")] []).2.2.1
    "text/plain" (by decide) (by decide)

/--
C9 counterexample: the code never checks the sign of the parsed size
field, so a metadata record whose `File:FileSize` is `-5` produces a
`MultimediaFile` with a negative `size`, contradicting the claim that
every produced record has a non-negative `sizeBytes`.
-/
theorem media_record_negative_size :
    parse_multimedia_file "a.jpg"
      [[("File:MIMEType", "image/jpeg"), ("File:FileSize", "-5"),
        ("EXIF:DateTimeOriginal", "2024:03:15 10:00:00")]]
      = some ⟨"a.jpg", -5, ⟨2024, 3, 15, 10, 0, 0, none⟩⟩ ∧
    ¬ (0 : Int) ≤ (-5 : Int) := by
  exact ⟨by decide, by decide⟩

/--
C9 amended: every record produced by the classifier is fully populated —
its path is the queried file path and its size is exactly the integer
parse of the record's file-size field — and its `sizeBytes` is
non-negative whenever the file-size field parses to a non-negative
integer (the code performs no sign check of its own).
-/
theorem media_record_fields (path : String) (m : MetaRecord) (rest : List MetaRecord)
    (f : MultimediaFile) (h : parse_multimedia_file path (m :: rest) = some f) :
    f.path = path ∧ (m.lookup "File:FileSize").bind pyInt = some f.size ∧
    (∀ z, (m.lookup "File:FileSize").bind pyInt = some z → 0 ≤ z → 0 ≤ f.size) := by
  cases hm : m.lookup "File:MIMEType" with
  | none => simp [parse_multimedia_file, hm] at h
  | some mime =>
    cases hsz : (m.lookup "File:FileSize").bind pyInt with
    | none => simp [parse_multimedia_file, hm, hsz] at h
    | some sz =>
      simp only [parse_multimedia_file, hm, hsz, Option.map_eq_some'] at h
      obtain ⟨d, _, hf⟩ := h
      subst hf
      refine ⟨rfl, rfl, ?_⟩
      intro z hz hz0
      injection hz with hzz
      subst hzz
      exact hz0

/-- C9 amended witness: a concrete recognized JPEG. -/
theorem media_record_fields_witness :
    (⟨"b.jpg", 500, ⟨2023, 7, 4, 12, 0, 0, none⟩⟩ : MultimediaFile).path = "b.jpg" ∧
    (([("File:MIMEType", "image/jpeg"), ("File:FileSize", "500"),
       ("EXIF:DateTimeOriginal", "2023:07:04 12:00:00")] : MetaRecord).lookup
        "File:FileSize").bind pyInt
      = some (⟨"b.jpg", 500, ⟨2023, 7, 4, 12, 0, 0, none⟩⟩ : MultimediaFile).size :=
  ⟨(media_record_fields "b.jpg"
      [("File:MIMEType", "image/jpeg"), ("File:FileSize", "500"),
       ("EXIF:DateTimeOriginal", "2023:07:04 12:00:00")] []
      ⟨"b.jpg", 500, ⟨2023, 7, 4, 12, 0, 0, none⟩⟩ (by decide)).1,
   (media_record_fields "b.jpg"
      [("File:MIMEType", "image/jpeg"), ("File:FileSize", "500"),
       ("EXIF:DateTimeOriginal", "2023:07:04 12:00:00")] []
      ⟨"b.jpg", 500, ⟨2023, 7, 4, 12, 0, 0, none⟩⟩ (by decide)).2.1⟩

/--
C5 counterexample: the metadata fetch of line 50 stands outside the
`try` block that starts on line 54, so an exception raised while
obtaining the metadata of one file (for example `json.loads` failing on
the response) escapes `parse_multimedia_file` and aborts the whole
enumeration, contrary to the claim that such errors are caught at the
per-file boundary and never escape the Enumerator.
-/
theorem enumerator_error_escapes :
    enumerate_files [("a.jpg", Except.error "json decode error")]
      = Except.error "json decode error" := rfl

/--
C5 amended: errors arising while parsing or classifying the fetched
metadata record of a file are caught at the per-file boundary — when
every fetch succeeds the enumeration always succeeds and simply skips
the unrecognized files — but an error raised by the metadata query
itself (line 50, before the `try` block) escapes the Enumerator.
-/
theorem enumerator_skips_unrecognized (entries : List (String × FetchResult))
    (h : ∀ pr ∈ entries, ∃ md, pr.2 = Except.ok md) :
    enumerate_files entries
      = Except.ok (entries.filterMap (fun pr =>
          match pr.2 with
          | .ok md => parse_multimedia_file pr.1 md
          | .error _ => none)) := by
  induction entries with
  | nil => rfl
  | cons pr rest ih =>
    obtain ⟨p, fr⟩ := pr
    obtain ⟨md, hmd⟩ := h (p, fr) (List.mem_cons_self _ _)
    simp only at hmd
    subst hmd
    have ih' := ih (fun q hq => h q (List.mem_cons_of_mem _ hq))
    cases hp : parse_multimedia_file p md with
    | none =>
      simp [enumerate_files, parse_multimedia_file_session, ih', hp]
    | some f =>
      simp [enumerate_files, parse_multimedia_file_session, ih', hp, Except.map]

/-- C5 amended witness: one unrecognized file and one recognized file,
both fetched successfully. -/
theorem enumerator_skips_unrecognized_witness :
    enumerate_files
      [("notes.txt", Except.ok [[("File:MIMEType", "text/plain"),
          ("File:FileSize", "10")]]),
       ("a.jpg", Except.ok [[("File:MIMEType", "image/jpeg"),
          ("File:FileSize", "500"),
          ("EXIF:DateTimeOriginal", "2023:07:04 12:00:00")]])]
      = Except.ok [⟨"a.jpg", 500, ⟨2023, 7, 4, 12, 0, 0, none⟩⟩] := by
  rw [enumerator_skips_unrecognized _ (by simp)]
  rfl

theorem intercalate_concat_marker (sep y : List Char) (xs : List (List Char)) :
    ∃ p, List.intercalate sep (xs ++ [y]) = p ++ y := by
  induction xs with
  | nil => exact ⟨[], by simp [List.intercalate]⟩
  | cons x xs ih =>
    obtain ⟨p, hp⟩ := ih
    cases hxs : xs ++ [y] with
    | nil => exact absurd hxs (by simp)
    | cons b t =>
      refine ⟨x ++ sep ++ p, ?_⟩
      have : List.intercalate sep ((x :: xs) ++ [y])
          = x ++ sep ++ List.intercalate sep (xs ++ [y]) := by
        simp only [List.cons_append, List.intercalate, hxs, List.intersperse]
        simp
      rw [this, hp]
      simp

theorem readLoop_sound (sent : List Char) (chunks : List (List Char))
    (acc s : List Char) (h : readLoop sent chunks acc = some s) :
    ∃ n, s ++ sent = acc ++ (List.take n chunks).flatten := by
  induction chunks generalizing acc with
  | nil =>
    rw [readLoop] at h
    split at h
    · next hsuf =>
      obtain ⟨p, hp⟩ := List.isSuffixOf_iff_suffix.mp hsuf
      injection h with hs
      refine ⟨0, ?_⟩
      rw [← hs, ← hp]
      simp
    · exact absurd h (by simp)
  | cons c cs ih =>
    rw [readLoop] at h
    split at h
    · next hsuf =>
      obtain ⟨p, hp⟩ := List.isSuffixOf_iff_suffix.mp hsuf
      injection h with hs
      refine ⟨0, ?_⟩
      rw [← hs, ← hp]
      simp
    · obtain ⟨n, hn⟩ := ih (acc ++ c) h
      refine ⟨n + 1, ?_⟩
      rw [hn]
      simp

/--
C6: the query of `ExifTool.execute` writes the argument block terminated
by the explicit `-execute` marker, and the read loop accumulates output
chunks until the accumulated buffer ends with the fixed sentinel
(`\x7bready\x7d` plus the platform line separator); the returned text is
exactly the accumulated output with that sentinel suffix stripped, that
is, result plus sentinel equals the bytes read.
-/
theorem exiftool_protocol (args : List (List Char)) (linesep : List Char)
    (chunks : List (List Char)) (s : List Char)
    (h : readLoop (sentinelOf linesep) chunks [] = some s) :
    (∃ p, sendWire args = p ++ ("-execute\n").data) ∧
    ∃ n, s ++ sentinelOf linesep = (List.take n chunks).flatten := by
  constructor
  · exact intercalate_concat_marker ['\n'] (("-execute\n").data) args
  · obtain ⟨n, hn⟩ := readLoop_sound (sentinelOf linesep) chunks [] s h
    exact ⟨n, by simpa using hn⟩

/-- C6 witness: a concrete query whose response arrives in two chunks,
the second ending with the sentinel. -/
theorem exiftool_protocol_witness :
    (∃ p, sendWire [("-G").data, ("-j").data, ("-n").data, ("a.jpg").data]
        = p ++ ("-execute\n").data) ∧
    ∃ n, ("[]\n").data ++ sentinelOf ['\n']
        = (List.take n [("[]\n").data, ("\x7bready\x7d\n").data]).flatten :=
  exiftool_protocol [("-G").data, ("-j").data, ("-n").data, ("a.jpg").data]
    ['\n'] [("[]\n").data, ("\x7bready\x7d\n").data] (("[]\n").data) (by decide)

theorem lookup_filter_ne (fs : FS) (p q : String) (h : q ≠ p) :
    (fs.filter (fun r => r.1 ≠ p)).lookup q = fs.lookup q := by
  induction fs with
  | nil => rfl
  | cons r t ih =>
    obtain ⟨k, v⟩ := r
    by_cases hk : k = p
    · have hqk : (q == k) = false := by simp [hk, h]
      have hfilt : decide ((k, v).1 ≠ p) = false := by simp [hk]
      rw [List.filter_cons, hfilt]
      simp only [List.lookup_cons, hqk, cond_false]
      exact ih
    · have hfilt : decide ((k, v).1 ≠ p) = true := by simp [hk]
      rw [List.filter_cons, hfilt]
      by_cases hq : q = k
      · simp [List.lookup_cons, hq]
      · have hqk : (q == k) = false := by simp [hq]
        simp only [if_true, List.lookup_cons, hqk, cond_false]
        exact ih

theorem fsWrite_lookup_self (fs : FS) (p : String) (sz : Int) :
    (fsWrite fs p sz).lookup p = some sz := by
  simp [fsWrite, List.lookup]

theorem fsWrite_lookup_ne (fs : FS) (p : String) (sz : Int) (q : String)
    (h : q ≠ p) :
    (fsWrite fs p sz).lookup q = fs.lookup q := by
  have hqp : (q == p) = false := by simp [h]
  simp only [fsWrite, List.lookup_cons, hqp, cond_false]
  exact lookup_filter_ne fs p q h

theorem copy_file_files (f : MultimediaFile) (dest : String) (st : DiskState) :
    (copy_file f dest st).files
      = fsWrite st.files (construct_target_path f dest) f.size := by
  simp only [copy_file]
  split <;> rfl

theorem copy_files_lookup_not_target (l : List MultimediaFile) (dest : String)
    (st : DiskState) (p : String)
    (h : ∀ g ∈ l, construct_target_path g dest ≠ p) :
    (copy_files l dest st).files.lookup p = st.files.lookup p := by
  induction l generalizing st with
  | nil => rfl
  | cons g t ih =>
    rw [copy_files, ih _ (fun x hx => h x (List.mem_cons_of_mem _ hx))]
    rw [copy_file_files]
    exact fsWrite_lookup_ne _ _ _ _ (Ne.symm (h g (List.mem_cons_self _ _)))

theorem copy_files_lookup_target (l : List MultimediaFile) (dest : String)
    (st : DiskState) (f : MultimediaFile) (hf : f ∈ l)
    (hinj : ∀ g ∈ l, construct_target_path g dest = construct_target_path f dest → g = f) :
    (copy_files l dest st).files.lookup (construct_target_path f dest)
      = some f.size := by
  induction l generalizing st with
  | nil => exact absurd hf (List.not_mem_nil f)
  | cons g t ih =>
    by_cases hft : f ∈ t
    · rw [copy_files]
      exact ih (copy_file g dest st) hft
          (fun x hx hx2 => hinj x (List.mem_cons_of_mem _ hx) hx2)
    · have hfg : f = g := by
        rcases List.mem_cons.mp hf with h1 | h1
        · exact h1
        · exact absurd h1 hft
      subst hfg
      rw [copy_files]
      have hnone : ∀ x ∈ t, construct_target_path x dest
          ≠ construct_target_path f dest := by
        intro x hx hx2
        exact hft (hinj x (List.mem_cons_of_mem _ hx) hx2 ▸ hx)
      rw [copy_files_lookup_not_target t dest _ _ hnone, copy_file_files]
      exact fsWrite_lookup_self _ _ _

theorem copy_phase_aux_state (dest : String) (files : List MultimediaFile)
    (i : Nat) (st : DiskState) :
    (copy_phase_aux false dest files i st).2 = copy_files files dest st := by
  induction files generalizing i st with
  | nil => rfl
  | cons f rest ih => simp [copy_phase_aux, copy_files, copy_file_ev, ih]

/--
C10: when two recognized candidates of one run share a computed target
path at which no file exists during resolution, both are classified
`Unique` (the resolution phase only reads the destination), both are
returned in enumeration order, the Copier performs both byte copies in
that order, and the later copy overwrites the earlier one at the shared
target, so the destination ends up holding the later candidate (last
writer wins).
-/
theorem duplicate_target_last_writer_wins (c1 c2 : MultimediaFile) (dest : String)
    (st0 : DiskState) (sp : Bool)
    (ht : construct_target_path c2 dest = construct_target_path c1 dest)
    (h0 : st0.files.lookup (construct_target_path c1 dest) = none) :
    unique_files [c1, c2] dest sp st0.files = [c1, c2] ∧
    copyEvents (copy_phase false [c1, c2] dest st0).1
      = [(c1.path, construct_target_path c1 dest),
         (c2.path, construct_target_path c2 dest)] ∧
    ((copy_phase false [c1, c2] dest st0).2).files.lookup
        (construct_target_path c2 dest) = some c2.size := by
  refine ⟨?_, ?_, ?_⟩
  · simp [unique_files, keepFile, ht, h0]
  · simp only [copy_phase, copy_phase_aux, copy_file_ev]
    split_ifs <;> simp_all [copyEvents]
  · show (copy_phase_aux false dest [c1, c2] 0 st0).2.files.lookup
        (construct_target_path c2 dest) = some c2.size
    rw [copy_phase_aux_state]
    rw [copy_files, copy_files, copy_files, copy_file_files]
    exact fsWrite_lookup_self _ _ _

/-- C10 witness: two same-month candidates with the same base name and an
empty destination. -/
theorem duplicate_target_last_writer_wins_witness :
    unique_files
      [⟨"x/a.jpg", 100, ⟨2024, 3, 15, 10, 0, 0, none⟩⟩,
       ⟨"y/a.jpg", 200, ⟨2024, 3, 2, 23, 59, 59, none⟩⟩] "d" false [] =
      [⟨"x/a.jpg", 100, ⟨2024, 3, 15, 10, 0, 0, none⟩⟩,
       ⟨"y/a.jpg", 200, ⟨2024, 3, 2, 23, 59, 59, none⟩⟩] ∧
    copyEvents (copy_phase false
        [⟨"x/a.jpg", 100, ⟨2024, 3, 15, 10, 0, 0, none⟩⟩,
         ⟨"y/a.jpg", 200, ⟨2024, 3, 2, 23, 59, 59, none⟩⟩] "d" ⟨[], []⟩).1
      = [("x/a.jpg",
          construct_target_path ⟨"x/a.jpg", 100, ⟨2024, 3, 15, 10, 0, 0, none⟩⟩ "d"),
         ("y/a.jpg",
          construct_target_path ⟨"y/a.jpg", 200, ⟨2024, 3, 2, 23, 59, 59, none⟩⟩ "d")] ∧
    ((copy_phase false
        [⟨"x/a.jpg", 100, ⟨2024, 3, 15, 10, 0, 0, none⟩⟩,
         ⟨"y/a.jpg", 200, ⟨2024, 3, 2, 23, 59, 59, none⟩⟩] "d" ⟨[], []⟩).2).files.lookup
        (construct_target_path ⟨"y/a.jpg", 200, ⟨2024, 3, 2, 23, 59, 59, none⟩⟩ "d")
      = some 200 :=
  duplicate_target_last_writer_wins
    ⟨"x/a.jpg", 100, ⟨2024, 3, 15, 10, 0, 0, none⟩⟩
    ⟨"y/a.jpg", 200, ⟨2024, 3, 2, 23, 59, 59, none⟩⟩ "d" ⟨[], []⟩ false
    (by decide) (by decide)

/--
C8: the resolve-and-copy pipeline is idempotent. For candidates with
pairwise-distinct target paths, after a first resolve-and-copy run every
candidate finds a file of at least its own size at its target (its own
copy, or the larger file it was skipped for), so with skip-smaller
enabled the second resolution classifies every candidate `Skip`, the
resolved list of the second run is empty, and the second copy phase
changes nothing at the destination — zero additional copies, no
duplicate files.
-/
theorem copier_idempotent (files : List MultimediaFile) (dest : String)
    (st0 : DiskState)
    (hinj : ∀ f ∈ files, ∀ g ∈ files,
      construct_target_path f dest = construct_target_path g dest → f = g) :
    unique_files files dest true
        (copy_files (unique_files files dest true st0.files) dest st0).files = [] ∧
    copy_files
        (unique_files files dest true
          (copy_files (unique_files files dest true st0.files) dest st0).files)
        dest (copy_files (unique_files files dest true st0.files) dest st0)
      = copy_files (unique_files files dest true st0.files) dest st0 := by
  have hu1 : unique_files files dest true st0.files
      = files.filter (fun g => keepFile g dest true st0.files) :=
    unique_files_eq_filter files dest true st0.files
  have hempty : unique_files files dest true
      (copy_files (unique_files files dest true st0.files) dest st0).files = [] := by
    rw [unique_files_eq_filter]
    apply List.filter_eq_nil_iff.mpr
    intro f hf
    by_cases hk : keepFile f dest true st0.files = true
    · have hfu : f ∈ unique_files files dest true st0.files := by
        rw [hu1]
        exact List.mem_filter.mpr ⟨hf, hk⟩
      have hlook : (copy_files (unique_files files dest true st0.files) dest
            st0).files.lookup (construct_target_path f dest) = some f.size := by
        apply copy_files_lookup_target _ dest st0 f hfu
        intro g hg hgt
        have hgf : g ∈ files := by
          rw [hu1] at hg
          exact (List.mem_filter.mp hg).1
        exact hinj g hgf f hf hgt
      simp [keepFile, hlook]
    · have hlook0 : ∃ e, st0.files.lookup (construct_target_path f dest) = some e
          ∧ f.size ≤ e := by
        unfold keepFile at hk
        cases hl : st0.files.lookup (construct_target_path f dest) with
        | none => rw [hl] at hk; simp at hk
        | some e =>
          rw [hl] at hk
          simp at hk
          exact ⟨e, rfl, hk⟩
      obtain ⟨e, he, hle⟩ := hlook0
      have hnot : ∀ g ∈ unique_files files dest true st0.files,
          construct_target_path g dest ≠ construct_target_path f dest := by
        intro g hg hgt
        rw [hu1] at hg
        obtain ⟨hgf, hgk⟩ := List.mem_filter.mp hg
        have hgeq : g = f := hinj g hgf f hf hgt
        subst hgeq
        exact hk hgk
      have hlook1 : (copy_files (unique_files files dest true st0.files) dest
            st0).files.lookup (construct_target_path f dest) = some e := by
        rw [copy_files_lookup_not_target _ dest st0 _ hnot]
        exact he
      simp only [keepFile, hlook1]
      simp [hle]
  refine ⟨hempty, ?_⟩
  rw [hempty]
  rfl

/-- C8 witness: one candidate, an empty destination: the first run copies
it, the second run resolves nothing and leaves the destination alone. -/
theorem copier_idempotent_witness :
    unique_files [⟨"s/a.jpg", 100, ⟨2024, 3, 1, 0, 0, 0, none⟩⟩] "d" true
        (copy_files
          (unique_files [⟨"s/a.jpg", 100, ⟨2024, 3, 1, 0, 0, 0, none⟩⟩] "d" true
            (DiskState.mk [] []).files)
          "d" (DiskState.mk [] [])).files = [] ∧
    copy_files
        (unique_files [⟨"s/a.jpg", 100, ⟨2024, 3, 1, 0, 0, 0, none⟩⟩] "d" true
          (copy_files
            (unique_files [⟨"s/a.jpg", 100, ⟨2024, 3, 1, 0, 0, 0, none⟩⟩] "d" true
              (DiskState.mk [] []).files)
            "d" (DiskState.mk [] [])).files)
        "d"
        (copy_files
          (unique_files [⟨"s/a.jpg", 100, ⟨2024, 3, 1, 0, 0, 0, none⟩⟩] "d" true
            (DiskState.mk [] []).files)
          "d" (DiskState.mk [] []))
      = copy_files
          (unique_files [⟨"s/a.jpg", 100, ⟨2024, 3, 1, 0, 0, 0, none⟩⟩] "d" true
            (DiskState.mk [] []).files)
          "d" (DiskState.mk [] []) :=
  copier_idempotent [⟨"s/a.jpg", 100, ⟨2024, 3, 1, 0, 0, 0, none⟩⟩] "d"
    (DiskState.mk [] []) (by decide)

end PhotoOrganizer
